import Mathlib

/-!
Verification of the svfmt formatting core (src/svfmt/src/lib.rs) against its
natural-language specification.

The embedding models the formatter as pure state-passing functions over an
explicit syntax-tree type.  Machine strings are modelled as `List Char`
(Rust's `String` here is only ever a character sequence; `str::len` is byte
length, which coincides with character count on the ASCII text these rules
emit).  Rust panics (an `unwrap` on a missing child, or the `usize`
underflow in `decrement_indent`) are modelled as the `FmtError.Crash`
outcome of an `Except` computation; `ensure!` failures map to the
corresponding error constructors.
-/

namespace Svfmt

/-- Error outcomes of a render call.  `InvalidCount` and `InvalidKind` mirror
the `Error::InvalidCount` / `Error::InvalidKind` variants raised by `ensure!`
in lib.rs; `Crash` models a Rust panic (a failed `unwrap` or the checked
`usize` subtraction overflow in `Buffer::decrement_indent`). -/
inductive FmtError where
  | InvalidCount
  | InvalidKind
  | Crash
deriving DecidableEq

/-- Semantic kind tags, mirroring the `Symbol` enum that build.rs generates
from the grammar's `parser.c`.  The constructors listed here are exactly the
ones lib.rs dispatches on; `Other id` stands for the remaining grammar
symbols present in the generated table, and `Undefined` is the tag the
generated `From<u16>` impl returns for any id absent from the table. -/
inductive Symbol where
  | Undefined
  | FunctionDeclaration
  | ClassDeclaration
  | Expression
  | JumpStatement
  | OperatorAssignment
  | IntegerAtomType
  | SimpleIdentifier
  | ListOfArgumentsParent
  | PrimaryLiteral
  | FunctionBodyDeclaration
  | FunctionDataTypeOrImplicit1
  | FunctionIdentifier
  | TfPortList
  | FunctionStatementOrNull
  | Comment
  | ClassIdentifier
  | ClassItem
  | Other (id : Nat)
deriving DecidableEq

/-- The generated classifier `impl From<u16> for Symbol` (build.rs,
`write_symbols_enum`): a `match` over the table's entries with the default
arm `_ => Symbol::Undefined`. -/
def Symbol.fromId (table : List (Nat × Symbol)) (id : Nat) : Symbol :=
  match table.lookup id with
  | some s => s
  | none => Symbol.Undefined

/-- One syntax-tree node as consumed by the formatter: raw kind id, kind
name, named flag, source text, source start/end rows, and ordered children
(named and anonymous alike, as tree-sitter's `children()` yields them). -/
inductive Node where
  | mk (kindId : Nat) (kind : List Char) (named : Bool) (text : List Char)
      (startRow : Nat) (endRow : Nat) (children : List Node)

def Node.kindId : Node → Nat
  | .mk k _ _ _ _ _ _ => k

def Node.kind : Node → List Char
  | .mk _ k _ _ _ _ _ => k

def Node.named : Node → Bool
  | .mk _ _ nm _ _ _ _ => nm

def Node.text : Node → List Char
  | .mk _ _ _ t _ _ _ => t

def Node.startRow : Node → Nat
  | .mk _ _ _ _ r _ _ => r

def Node.endRow : Node → Nat
  | .mk _ _ _ _ _ r _ => r

def Node.children : Node → List Node
  | .mk _ _ _ _ _ _ cs => cs

theorem Node.sizeOf_children_lt (n : Node) : sizeOf n.children < sizeOf n := by
  cases n with
  | mk k kd nm t sr er cs => simp [Node.children]

theorem Node.sizeOf_mem_lt {c : Node} {n : Node} (h : c ∈ n.children) :
    sizeOf c < sizeOf n :=
  Nat.lt_trans (List.sizeOf_lt_of_mem h) (Node.sizeOf_children_lt n)

theorem Node.sizeOf_get_lt (n : Node) (i : Fin n.children.length) :
    sizeOf (n.children.get i) < sizeOf n :=
  Node.sizeOf_mem_lt (n.children.get_mem i.1 i.2)

theorem sizeOf_filter_le (p : Node → Bool) (l : List Node) :
    sizeOf (l.filter p) ≤ sizeOf l := by
  induction l with
  | nil => simp [List.filter]
  | cons c rest ih =>
    simp only [List.filter]
    cases p c <;> simp <;> omega

/-- Rust `self.content.ends_with('\n')`. -/
def endsWithNewline (l : List Char) : Bool :=
  match l.getLast? with
  | some c => c = '\n'
  | none => false

/-- The render buffer (`struct Buffer` in lib.rs): accumulated content, the
length of the current line, the indent width in spaces, and the
pending-blank-line flag. -/
structure Buffer where
  content : List Char
  line_length : Nat
  indent : Nat
  insert_blank_line : Bool
deriving DecidableEq

/-- `Buffer::with_capacity`: a fresh empty buffer (the capacity hint has no
observable effect). -/
def Buffer.with_capacity (_capacity : Nat) : Buffer :=
  { content := [], line_length := 0, indent := 0, insert_blank_line := false }

/-- `Buffer::push_indent`: appends `indent` spaces to the content (directly,
bypassing `push`, so `line_length` is not updated). -/
def Buffer.push_indent (b : Buffer) : Buffer :=
  { b with content := b.content ++ List.replicate b.indent ' ' }

/-- `Buffer::push`: updates `line_length`, then, when a non-newline character
follows a line break, first emits a pending blank line (if requested) and
the current indentation, and finally appends the character. -/
def Buffer.push (b : Buffer) (c : Char) : Buffer :=
  let b1 := if c = '\n' then { b with line_length := 0 }
            else { b with line_length := b.line_length + 1 }
  if c ≠ '\n' ∧ endsWithNewline b1.content = true then
    let b2 := if b1.insert_blank_line then
                { b1 with content := b1.content ++ ['\n'], insert_blank_line := false }
              else b1
    let b3 := b2.push_indent
    { b3 with content := b3.content ++ [c] }
  else
    { b1 with content := b1.content ++ [c] }

/-- `Buffer::push_str`: pushes a string one character at a time. -/
def Buffer.push_str (b : Buffer) (s : List Char) : Buffer :=
  s.foldl Buffer.push b

/-- `Buffer::increment_indent`. -/
def Buffer.increment_indent (b : Buffer) : Buffer :=
  { b with indent := b.indent + 4, insert_blank_line := false }

/-- `Buffer::decrement_indent`: `self.indent -= 4` on a `usize`; the
subtraction underflows (panics under Rust's overflow checks) when
`indent < 4`, modelled as the `Crash` outcome. -/
def Buffer.decrement_indent (b : Buffer) : Except FmtError Buffer :=
  if 4 ≤ b.indent then
    Except.ok { b with indent := b.indent - 4, insert_blank_line := false }
  else
    Except.error FmtError.Crash

/-- `Buffer::maybe_blank_line`. -/
def Buffer.maybe_blank_line (b : Buffer) : Buffer :=
  { b with insert_blank_line := true }

mutual

/-- The `Terminals` iterator (`Terminals::collect_terminals`): all leaf
descendants of a node, in source order. -/
def collect_terminals (n : Node) : List Node :=
  collect_terminals_list n.children
termination_by 2 * sizeOf n + 1
decreasing_by
  have := Node.sizeOf_children_lt n
  omega

/-- Loop of `Terminals::collect_terminals` over a child list: a child with no
children is itself collected, and every child is recursed into. -/
def collect_terminals_list : (l : List Node) → List Node
  | [] => []
  | c :: rest =>
    (if c.children.length = 0 then [c] else []) ++
      collect_terminals c ++ collect_terminals_list rest
termination_by l => 2 * sizeOf l
decreasing_by
  all_goals simp only [List.cons.sizeOf_spec]
  all_goals omega

end

/-- `Formatter::format_terminals`: the texts of all terminal descendants,
joined by `sep`. -/
def format_terminals (n : Node) (sep : List Char) : List Char :=
  List.intercalate sep ((collect_terminals n).map Node.text)

/-- `Formatter::blank_lines_after_previous_function_item`: the number of
fully blank source lines between a function item and its previous sibling,
counted only when that sibling is itself a statement or comment.  The
sibling pointer is passed explicitly (`prev`).  The `usize` row subtraction
is modelled with truncating `Nat` subtraction; for tree-sitter siblings the
next item never starts before the previous one ends, so the two agree. -/
def blank_lines_after_previous_function_item (sf : Nat → Symbol)
    (prev : Option Node) (node : Node) : Nat :=
  match prev with
  | some prev =>
    match sf prev.kindId with
    | Symbol.FunctionStatementOrNull | Symbol.Comment =>
      let difference := node.startRow - prev.endRow
      if difference = 0 then 0 else difference - 1
    | _ => 0
  | none => 0

/-- Commit loop of `format_tf_port_list` over the measured fragments
(`identify_last`): each fragment on its own line, followed by a comma except
for the last. -/
def push_fragments (b : Buffer) : (l : List (List Char)) → Buffer
  | [] => b
  | [s] => (b.push_str s).push_str "\n".toList
  | s :: s2 :: rest =>
    push_fragments (((b.push_str s).push_str ",".toList).push_str "\n".toList) (s2 :: rest)

mutual

/-- `Formatter::format_node`: dispatch on the classified kind of the node;
kinds without a specific rule fall back to `format_children`. -/
def format_node (sf : Nat → Symbol) (b : Buffer) (n : Node) : Except FmtError Buffer :=
  match sf n.kindId with
  | Symbol.FunctionDeclaration => format_function_declaration sf b n
  | Symbol.ClassDeclaration => format_class_declaration sf b n
  | Symbol.Expression => format_expression sf b n
  | Symbol.JumpStatement => format_jump_statement sf b n
  | Symbol.OperatorAssignment => format_operator_assignment sf b n
  | Symbol.IntegerAtomType => Except.ok ((b.push_str n.text).push_str " ".toList)
  | Symbol.SimpleIdentifier => Except.ok (b.push_str n.text)
  | Symbol.ListOfArgumentsParent => format_list_of_arguments sf b n
  | Symbol.PrimaryLiteral => Except.ok (b.push_str n.text)
  | _ => format_children sf b n
termination_by 8 * sizeOf n + 4
decreasing_by
  all_goals omega

/-- `Formatter::format_children`: render every child (named and anonymous),
in order, adding no text. -/
def format_children (sf : Nat → Symbol) (b : Buffer) (n : Node) : Except FmtError Buffer :=
  format_nodes sf b n.children
termination_by 8 * sizeOf n + 2
decreasing_by
  have := Node.sizeOf_children_lt n
  omega

/-- Loop of `format_children`: sequential rendering of a list of nodes. -/
def format_nodes (sf : Nat → Symbol) (b : Buffer) : (l : List Node) → Except FmtError Buffer
  | [] => Except.ok b
  | c :: rest =>
    match format_node sf b c with
    | Except.ok b1 => format_nodes sf b1 rest
    | Except.error e => Except.error e
termination_by l => 8 * sizeOf l + 5
decreasing_by
  all_goals simp only [List.cons.sizeOf_spec]
  all_goals omega

/-- `Formatter::format_list_of_arguments`: named children between
parentheses, separated by a comma and a space. -/
def format_list_of_arguments (sf : Nat → Symbol) (b : Buffer) (n : Node) :
    Except FmtError Buffer :=
  match format_args_loop sf (b.push_str "(".toList) (n.children.filter (fun c => c.named)) with
  | Except.ok b1 => Except.ok (b1.push_str ")".toList)
  | Except.error e => Except.error e
termination_by 8 * sizeOf n + 3
decreasing_by
  have h1 := sizeOf_filter_le (fun c => c.named) n.children
  have h2 := Node.sizeOf_children_lt n
  omega

/-- Loop of `format_list_of_arguments` (`identify_last`): a separator after
every element except the last. -/
def format_args_loop (sf : Nat → Symbol) (b : Buffer) : (l : List Node) → Except FmtError Buffer
  | [] => Except.ok b
  | [c] => format_node sf b c
  | c :: c2 :: rest =>
    match format_node sf b c with
    | Except.ok b1 => format_args_loop sf (b1.push_str ", ".toList) (c2 :: rest)
    | Except.error e => Except.error e
termination_by l => 8 * sizeOf l + 5
decreasing_by
  all_goals simp only [List.cons.sizeOf_spec]
  all_goals omega

/-- `Formatter::format_expression`: binary form for exactly 3 children,
recursion for exactly 1 child, `InvalidCount` otherwise. -/
def format_expression (sf : Nat → Symbol) (b : Buffer) (n : Node) : Except FmtError Buffer :=
  if h3 : n.children.length = 3 then
    match format_node sf b (n.children.get ⟨0, by omega⟩) with
    | Except.ok b1 =>
      format_node sf
        (((b1.push_str " ".toList).push_str (n.children.get ⟨1, by omega⟩).text).push_str
          " ".toList)
        (n.children.get ⟨2, by omega⟩)
    | Except.error e => Except.error e
  else if h1 : n.children.length = 1 then
    format_node sf b (n.children.get ⟨0, by omega⟩)
  else
    Except.error FmtError.InvalidCount
termination_by 8 * sizeOf n + 3
decreasing_by
  all_goals
    first
    | (have h := Node.sizeOf_get_lt n ⟨0, by omega⟩; omega)
    | (have h := Node.sizeOf_get_lt n ⟨2, by omega⟩; omega)

/-- `Formatter::format_jump_statement`: `node.child(0).unwrap()` (a crash
when there is no child at all), the keyword's text, and for a child count of
exactly 3 a space and the expression child. -/
def format_jump_statement (sf : Nat → Symbol) (b : Buffer) (n : Node) : Except FmtError Buffer :=
  match n.children.get? 0 with
  | none => Except.error FmtError.Crash
  | some jump_type =>
    let b1 := b.push_str jump_type.text
    if h3 : n.children.length = 3 then
      format_expression sf (b1.push_str " ".toList) (n.children.get ⟨1, by omega⟩)
    else
      Except.ok b1
termination_by 8 * sizeOf n + 3
decreasing_by
  have := Node.sizeOf_get_lt n ⟨1, by omega⟩
  omega

/-- `Formatter::format_operator_assignment`: requires exactly 3 children;
lvalue text, space, operator text, space, rendered expression. -/
def format_operator_assignment (sf : Nat → Symbol) (b : Buffer) (n : Node) :
    Except FmtError Buffer :=
  if h3 : n.children.length = 3 then
    format_expression sf
      ((((b.push_str (n.children.get ⟨0, by omega⟩).text).push ' ').push_str
          (n.children.get ⟨1, by omega⟩).text).push ' ')
      (n.children.get ⟨2, by omega⟩)
  else
    Except.error FmtError.InvalidCount
termination_by 8 * sizeOf n + 3
decreasing_by
  have := Node.sizeOf_get_lt n ⟨2, by omega⟩
  omega

/-- `Formatter::format_class_declaration`: `"class "`, the children loop,
then an unconditional `decrement_indent`, `"endclass\n"`, and a blank-line
request. -/
def format_class_declaration (sf : Nat → Symbol) (b : Buffer) (n : Node) :
    Except FmtError Buffer :=
  match format_class_children sf (b.push_str "class ".toList) false n.children with
  | Except.ok b1 =>
    match b1.decrement_indent with
    | Except.ok b2 => Except.ok ((b2.push_str "endclass\n".toList).maybe_blank_line)
    | Except.error e => Except.error e
  | Except.error e => Except.error e
termination_by 8 * sizeOf n + 3
decreasing_by
  have := Node.sizeOf_children_lt n
  omega

/-- Loop of `format_class_declaration` over the children, threading the
`class_item_seen` flag: on the first class item emit `";\n"` and indent. -/
def format_class_children (sf : Nat → Symbol) (b : Buffer) (class_item_seen : Bool) :
    (l : List Node) → Except FmtError Buffer
  | [] => Except.ok b
  | child :: rest =>
    match sf child.kindId with
    | Symbol.ClassIdentifier =>
      format_class_children sf (b.push_str (format_terminals child " ".toList))
        class_item_seen rest
    | Symbol.ClassItem =>
      let b1 := if class_item_seen then b else (b.push_str ";\n".toList).increment_indent
      match format_node sf b1 child with
      | Except.ok b2 => format_class_children sf b2 true rest
      | Except.error e => Except.error e
    | _ => format_class_children sf b class_item_seen rest
termination_by l => 8 * sizeOf l + 5
decreasing_by
  all_goals simp only [List.cons.sizeOf_spec]
  all_goals omega

/-- `Formatter::format_function_declaration`: requires exactly 2 children, a
`function` keyword and a `FunctionBodyDeclaration` body; emits
`"function "`, walks the body's children, then `"endfunction\n"` and a
blank-line request. -/
def format_function_declaration (sf : Nat → Symbol) (b : Buffer) (n : Node) :
    Except FmtError Buffer :=
  if h2 : n.children.length = 2 then
    if (n.children.get ⟨0, by omega⟩).kind = "function".toList then
      if sf (n.children.get ⟨1, by omega⟩).kindId = Symbol.FunctionBodyDeclaration then
        match format_function_body_items sf (b.push_str "function ".toList) none
            (n.children.get ⟨1, by omega⟩).children with
        | Except.ok b1 => Except.ok ((b1.push_str "endfunction\n".toList).maybe_blank_line)
        | Except.error e => Except.error e
      else Except.error FmtError.InvalidKind
    else Except.error FmtError.InvalidKind
  else Except.error FmtError.InvalidCount
termination_by 8 * sizeOf n + 3
decreasing_by
  have h1 := Node.sizeOf_get_lt n ⟨1, by omega⟩
  have h2 := Node.sizeOf_children_lt (n.children.get ⟨1, by omega⟩)
  omega

/-- Loop of `format_function_declaration` over the body's children,
threading the previous sibling for the gap policy. -/
def format_function_body_items (sf : Nat → Symbol) (b : Buffer) (prev : Option Node) :
    (l : List Node) → Except FmtError Buffer
  | [] => Except.ok b
  | child :: rest =>
    match sf child.kindId with
    | Symbol.FunctionDataTypeOrImplicit1 =>
      format_function_body_items sf
        ((b.push_str (format_terminals child " ".toList)).push_str " ".toList)
        (some child) rest
    | Symbol.FunctionIdentifier =>
      format_function_body_items sf (b.push_str (format_terminals child " ".toList))
        (some child) rest
    | Symbol.TfPortList =>
      match format_tf_port_list sf b child with
      | Except.ok b1 => format_function_body_items sf (b1.push_str "\n".toList) (some child) rest
      | Except.error e => Except.error e
    | Symbol.FunctionStatementOrNull =>
      match format_function_statement_or_null sf b.increment_indent prev child with
      | Except.ok b1 =>
        match b1.decrement_indent with
        | Except.ok b2 => format_function_body_items sf b2 (some child) rest
        | Except.error e => Except.error e
      | Except.error e => Except.error e
    | Symbol.Comment =>
      let b1 := b.increment_indent
      let b2 := if 0 < blank_lines_after_previous_function_item sf prev child then
                  b1.push '\n'
                else b1
      match ((b2.push_str child.text).push_str "\n".toList).decrement_indent with
      | Except.ok b3 => format_function_body_items sf b3 (some child) rest
      | Except.error e => Except.error e
    | _ => format_function_body_items sf b (some child) rest
termination_by l => 8 * sizeOf l + 5
decreasing_by
  all_goals simp only [List.cons.sizeOf_spec]
  all_goals omega

/-- `Formatter::to_line_buffer`: render a node into a fresh, isolated buffer
and return its content. -/
def to_line_buffer (sf : Nat → Symbol) (n : Node) : Except FmtError (List Char) :=
  match format_node sf (Buffer.with_capacity 1024) n with
  | Except.ok b => Except.ok b.content
  | Except.error e => Except.error e
termination_by 8 * sizeOf n + 5
decreasing_by
  omega

/-- Measurement loop of `format_tf_port_list`: each named child rendered
independently through `to_line_buffer`, collected left to right, stopping at
the first error. -/
def render_port_fragments (sf : Nat → Symbol) : (l : List Node) → Except FmtError (List (List Char))
  | [] => Except.ok []
  | c :: rest =>
    match to_line_buffer sf c with
    | Except.ok s =>
      match render_port_fragments sf rest with
      | Except.ok ss => Except.ok (s :: ss)
      | Except.error e => Except.error e
    | Except.error e => Except.error e
termination_by l => 8 * sizeOf l + 5
decreasing_by
  all_goals simp only [List.cons.sizeOf_spec]
  all_goals omega

/-- `Formatter::format_tf_port_list`: measure a single-line candidate
`"(" ++ fragments joined by ", " ++ ");"`; commit it when the current column
plus its length fits in 80, otherwise commit the multi-line form. -/
def format_tf_port_list (sf : Nat → Symbol) (b : Buffer) (n : Node) : Except FmtError Buffer :=
  match render_port_fragments sf (n.children.filter (fun c => c.named)) with
  | Except.ok children =>
    let single_line := "(".toList ++ List.intercalate ", ".toList children ++ ");".toList
    if b.line_length + single_line.length ≤ 80 then
      Except.ok (b.push_str single_line)
    else
      match (push_fragments ((b.push_str "(\n".toList).increment_indent) children).decrement_indent with
      | Except.ok b1 => Except.ok (b1.push_str ");".toList)
      | Except.error e => Except.error e
  | Except.error e => Except.error e
termination_by 8 * sizeOf n + 3
decreasing_by
  have h1 := sizeOf_filter_le (fun c => c.named) n.children
  have h2 := Node.sizeOf_children_lt n
  omega

/-- `Formatter::format_function_statement_or_null`: requires exactly 1
child; consults the gap policy, renders the children, then `";\n"`. -/
def format_function_statement_or_null (sf : Nat → Symbol) (b : Buffer) (prev : Option Node)
    (n : Node) : Except FmtError Buffer :=
  if n.children.length = 1 then
    match format_children sf
        (if 0 < blank_lines_after_previous_function_item sf prev n then b.push '\n' else b) n with
    | Except.ok b2 => Except.ok (b2.push_str ";\n".toList)
    | Except.error e => Except.error e
  else Except.error FmtError.InvalidCount
termination_by 8 * sizeOf n + 3
decreasing_by
  omega

end

/-- The public `format` entry point: one fresh buffer, one render pass from
the root, and on success the buffer's content is what reaches the output
sink (on error nothing is written). -/
def format (sf : Nat → Symbol) (source : List Char) (root : Node) :
    Except FmtError (List Char) :=
  match format_node sf (Buffer.with_capacity (source.length + source.length / 2)) root with
  | Except.ok b => Except.ok b.content
  | Except.error e => Except.error e

/-! ### General list helpers -/

theorem takeWhile_append_all {α : Type} (p : α → Bool) (xs ys : List α)
    (h : ∀ x ∈ xs, p x = true) :
    (xs ++ ys).takeWhile p = xs ++ ys.takeWhile p := by
  induction xs with
  | nil => simp
  | cons x xs ih =>
    have hx : p x = true := h x (by simp)
    simp only [List.cons_append, List.takeWhile_cons, hx]
    simp [ih (fun y hy => h y (by simp [hy]))]

theorem takeWhile_append_stop {α : Type} (p : α → Bool) (xs ys : List α)
    (h : ∃ x ∈ xs, p x = false) :
    (xs ++ ys).takeWhile p = xs.takeWhile p := by
  induction xs with
  | nil =>
    rcases h with ⟨x, hx, _⟩
    cases hx
  | cons x xs ih =>
    by_cases hp : p x = true
    · have hrest : ∃ y ∈ xs, p y = false := by
        rcases h with ⟨y, hy, hpy⟩
        rcases List.mem_cons.mp hy with rfl | hy2
        · rw [hp] at hpy; cases hpy
        · exact ⟨y, hy2, hpy⟩
      simp only [List.cons_append, List.takeWhile_cons, hp]
      simp [ih hrest]
    · simp only [List.cons_append, List.takeWhile_cons]
      rw [Bool.not_eq_true] at hp
      simp [hp]

/-! ### Buffer field lemmas -/

theorem Buffer.indent_push (b : Buffer) (c : Char) : (b.push c).indent = b.indent := by
  simp only [Buffer.push, Buffer.push_indent]
  by_cases hc : c = '\n' <;> by_cases he : endsWithNewline b.content = true <;>
    by_cases hb : b.insert_blank_line <;> simp [hc, he, hb]

theorem Buffer.indent_push_str (b : Buffer) (s : List Char) :
    (b.push_str s).indent = b.indent := by
  induction s generalizing b with
  | nil => rfl
  | cons c cs ih =>
    show ((b.push c).push_str cs).indent = b.indent
    rw [ih, Buffer.indent_push]

theorem Buffer.line_length_push (b : Buffer) (c : Char) :
    (b.push c).line_length = if c = '\n' then 0 else b.line_length + 1 := by
  simp only [Buffer.push, Buffer.push_indent]
  by_cases hc : c = '\n' <;> by_cases he : endsWithNewline b.content = true <;>
    by_cases hb : b.insert_blank_line <;> simp [hc, he, hb]

theorem push_fragments_indent (b : Buffer) (l : List (List Char)) :
    (push_fragments b l).indent = b.indent := by
  induction l generalizing b with
  | nil => rfl
  | cons s rest ih =>
    cases rest with
    | nil => simp [push_fragments, Buffer.indent_push_str]
    | cons s2 rest2 =>
      rw [push_fragments, ih]
      simp [Buffer.indent_push_str]

theorem Buffer.decrement_indent_of_le (b : Buffer) (h : 4 ≤ b.indent) :
    b.decrement_indent =
      Except.ok { b with indent := b.indent - 4, insert_blank_line := false } := by
  rw [Buffer.decrement_indent, if_pos h]

/-! ### Step lemmas: one equation per dispatch arm and per construct case -/

section StepLemmas

variable (sf : Nat → Symbol) (b : Buffer) (n : Node)

theorem format_node_eq_function_declaration (h : sf n.kindId = Symbol.FunctionDeclaration) :
    format_node sf b n = format_function_declaration sf b n := by
  rw [format_node, h]

theorem format_node_eq_class_declaration (h : sf n.kindId = Symbol.ClassDeclaration) :
    format_node sf b n = format_class_declaration sf b n := by
  rw [format_node, h]

theorem format_node_eq_expression (h : sf n.kindId = Symbol.Expression) :
    format_node sf b n = format_expression sf b n := by
  rw [format_node, h]

theorem format_node_eq_jump_statement (h : sf n.kindId = Symbol.JumpStatement) :
    format_node sf b n = format_jump_statement sf b n := by
  rw [format_node, h]

theorem format_node_eq_operator_assignment (h : sf n.kindId = Symbol.OperatorAssignment) :
    format_node sf b n = format_operator_assignment sf b n := by
  rw [format_node, h]

theorem format_node_eq_integer_atom_type (h : sf n.kindId = Symbol.IntegerAtomType) :
    format_node sf b n = Except.ok ((b.push_str n.text).push_str " ".toList) := by
  rw [format_node, h]

theorem format_node_eq_simple_identifier (h : sf n.kindId = Symbol.SimpleIdentifier) :
    format_node sf b n = Except.ok (b.push_str n.text) := by
  rw [format_node, h]

theorem format_node_eq_list_of_arguments (h : sf n.kindId = Symbol.ListOfArgumentsParent) :
    format_node sf b n = format_list_of_arguments sf b n := by
  rw [format_node, h]

theorem format_node_eq_primary_literal (h : sf n.kindId = Symbol.PrimaryLiteral) :
    format_node sf b n = Except.ok (b.push_str n.text) := by
  rw [format_node, h]

theorem format_children_eq : format_children sf b n = format_nodes sf b n.children := by
  rw [format_children]

theorem format_nodes_nil : format_nodes sf b [] = Except.ok b := by
  rw [format_nodes]

theorem format_nodes_cons (c : Node) (rest : List Node) :
    format_nodes sf b (c :: rest) =
      match format_node sf b c with
      | Except.ok b1 => format_nodes sf b1 rest
      | Except.error e => Except.error e := by
  rw [format_nodes]

theorem format_expression_one (c : Node) (h : n.children = [c]) :
    format_expression sf b n = format_node sf b c := by
  rw [format_expression]
  simp [h]

theorem format_expression_three (l op r : Node) (h : n.children = [l, op, r]) :
    format_expression sf b n =
      match format_node sf b l with
      | Except.ok b1 =>
        format_node sf (((b1.push_str " ".toList).push_str op.text).push_str " ".toList) r
      | Except.error e => Except.error e := by
  rw [format_expression]
  simp [h]

theorem format_expression_invalid (h1 : n.children.length ≠ 1) (h3 : n.children.length ≠ 3) :
    format_expression sf b n = Except.error FmtError.InvalidCount := by
  rw [format_expression, dif_neg h3, dif_neg h1]

theorem format_jump_statement_no_children (h : n.children = []) :
    format_jump_statement sf b n = Except.error FmtError.Crash := by
  rw [format_jump_statement]
  simp [h]

theorem format_jump_statement_keyword_only (kw : Node) (h0 : n.children.get? 0 = some kw)
    (h3 : n.children.length ≠ 3) :
    format_jump_statement sf b n = Except.ok (b.push_str kw.text) := by
  rw [format_jump_statement, h0]
  simp [h3]

theorem format_jump_statement_with_expression (kw e : Node) (h0 : n.children.get? 0 = some kw)
    (hlen : n.children.length = 3) (h1 : n.children.get? 1 = some e) :
    format_jump_statement sf b n =
      format_expression sf ((b.push_str kw.text).push_str " ".toList) e := by
  rcases List.get?_eq_some.mp h1 with ⟨hw, hget⟩
  rw [format_jump_statement, h0]
  show (if h3 : n.children.length = 3 then
      format_expression sf ((b.push_str kw.text).push_str " ".toList)
        (n.children.get ⟨1, by omega⟩)
    else Except.ok (b.push_str kw.text)) = _
  rw [dif_pos hlen, show n.children.get ⟨1, by omega⟩ = e from hget]

theorem format_operator_assignment_three (l op r : Node) (h : n.children = [l, op, r]) :
    format_operator_assignment sf b n =
      format_expression sf ((((b.push_str l.text).push ' ').push_str op.text).push ' ') r := by
  rw [format_operator_assignment]
  simp [h]

theorem format_operator_assignment_invalid (h3 : n.children.length ≠ 3) :
    format_operator_assignment sf b n = Except.error FmtError.InvalidCount := by
  rw [format_operator_assignment, dif_neg h3]

theorem format_class_declaration_eq :
    format_class_declaration sf b n =
      match format_class_children sf (b.push_str "class ".toList) false n.children with
      | Except.ok b1 =>
        match b1.decrement_indent with
        | Except.ok b2 => Except.ok ((b2.push_str "endclass\n".toList).maybe_blank_line)
        | Except.error e => Except.error e
      | Except.error e => Except.error e := by
  rw [format_class_declaration]

theorem format_class_children_nil (seen : Bool) :
    format_class_children sf b seen [] = Except.ok b := by
  rw [format_class_children]

theorem format_class_children_identifier (seen : Bool) (child : Node) (rest : List Node)
    (h : sf child.kindId = Symbol.ClassIdentifier) :
    format_class_children sf b seen (child :: rest) =
      format_class_children sf (b.push_str (format_terminals child " ".toList)) seen rest := by
  rw [format_class_children, h]

theorem format_class_children_item (seen : Bool) (child : Node) (rest : List Node)
    (h : sf child.kindId = Symbol.ClassItem) :
    format_class_children sf b seen (child :: rest) =
      match format_node sf
          (if seen then b else (b.push_str ";\n".toList).increment_indent) child with
      | Except.ok b2 => format_class_children sf b2 true rest
      | Except.error e => Except.error e := by
  rw [format_class_children, h]

theorem format_class_children_other (seen : Bool) (child : Node) (rest : List Node)
    (h : sf child.kindId ≠ Symbol.ClassIdentifier) (h2 : sf child.kindId ≠ Symbol.ClassItem) :
    format_class_children sf b seen (child :: rest) =
      format_class_children sf b seen rest := by
  rw [format_class_children]
  rcases hs : sf child.kindId <;> simp_all

theorem format_function_statement_or_null_eq (prev : Option Node)
    (h : n.children.length = 1) :
    format_function_statement_or_null sf b prev n =
      match format_children sf
          (if 0 < blank_lines_after_previous_function_item sf prev n then b.push '\n' else b)
          n with
      | Except.ok b2 => Except.ok (b2.push_str ";\n".toList)
      | Except.error e => Except.error e := by
  rw [format_function_statement_or_null, if_pos h]

theorem format_function_statement_or_null_invalid (prev : Option Node)
    (h : n.children.length ≠ 1) :
    format_function_statement_or_null sf b prev n = Except.error FmtError.InvalidCount := by
  rw [format_function_statement_or_null, if_neg h]

theorem to_line_buffer_eq :
    to_line_buffer sf n = (format_node sf (Buffer.with_capacity 1024) n).map Buffer.content := by
  rw [to_line_buffer]
  rcases h : format_node sf (Buffer.with_capacity 1024) n with e | b2 <;> simp [Except.map]

theorem render_port_fragments_nil : render_port_fragments sf [] = Except.ok [] := by
  rw [render_port_fragments]

theorem render_port_fragments_cons (c : Node) (rest : List Node) :
    render_port_fragments sf (c :: rest) =
      match to_line_buffer sf c with
      | Except.ok s =>
        match render_port_fragments sf rest with
        | Except.ok ss => Except.ok (s :: ss)
        | Except.error e => Except.error e
      | Except.error e => Except.error e := by
  rw [render_port_fragments]

theorem format_tf_port_list_eq :
    format_tf_port_list sf b n =
      match render_port_fragments sf (n.children.filter (fun c => c.named)) with
      | Except.ok children =>
        if b.line_length +
            ("(".toList ++ List.intercalate ", ".toList children ++ ");".toList).length ≤ 80 then
          Except.ok
            (b.push_str ("(".toList ++ List.intercalate ", ".toList children ++ ");".toList))
        else
          match (push_fragments ((b.push_str "(\n".toList).increment_indent)
              children).decrement_indent with
          | Except.ok b1 => Except.ok (b1.push_str ");".toList)
          | Except.error e => Except.error e
      | Except.error e => Except.error e := by
  rw [format_tf_port_list]

theorem format_eq (source : List Char) :
    format sf source n =
      match format_node sf (Buffer.with_capacity (source.length + source.length / 2)) n with
      | Except.ok b1 => Except.ok b1.content
      | Except.error e => Except.error e := by
  rw [format]

end StepLemmas

/-! ### The structural fallback -/

/-- The kinds for which `format_node` has a specific rule arm; every other
kind (including `Undefined`) is handled by the structural fallback. -/
def has_specific_rule : Symbol → Bool
  | Symbol.FunctionDeclaration => true
  | Symbol.ClassDeclaration => true
  | Symbol.Expression => true
  | Symbol.JumpStatement => true
  | Symbol.OperatorAssignment => true
  | Symbol.IntegerAtomType => true
  | Symbol.SimpleIdentifier => true
  | Symbol.ListOfArgumentsParent => true
  | Symbol.PrimaryLiteral => true
  | _ => false

theorem format_node_fallback (sf : Nat → Symbol) (b : Buffer) (n : Node)
    (h : has_specific_rule (sf n.kindId) = false) :
    format_node sf b n = format_children sf b n := by
  rw [format_node]
  rcases hs : sf n.kindId <;> simp [has_specific_rule, hs] at h ⊢

/-- Dropping anonymous children that render to nothing: when every anonymous
node in the list is a leaf with no specific rule, the sequential rendering
of the whole list coincides with that of its named members. -/
theorem format_nodes_filter_named (sf : Nat → Symbol) (b : Buffer) (l : List Node)
    (h : ∀ c ∈ l, c.named = false →
      c.children = [] ∧ has_specific_rule (sf c.kindId) = false) :
    format_nodes sf b l = format_nodes sf b (l.filter (fun c => c.named)) := by
  induction l generalizing b with
  | nil => rfl
  | cons c rest ih =>
    by_cases hc : c.named = true
    · rw [format_nodes_cons]
      rw [show (c :: rest).filter (fun c => c.named) =
        c :: rest.filter (fun c => c.named) from by simp [List.filter, hc]]
      rw [format_nodes_cons]
      rcases hr : format_node sf b c with e | b1
      · rfl
      · exact ih b1 (fun d hd => h d (by simp [hd]))
    · rw [Bool.not_eq_true] at hc
      rcases h c (by simp) hc with ⟨hleaf, hrule⟩
      rw [format_nodes_cons, format_node_fallback sf b c hrule, format_children_eq, hleaf,
        format_nodes_nil]
      rw [show (c :: rest).filter (fun c => c.named) =
        rest.filter (fun c => c.named) from by simp [List.filter, hc]]
      exact ih b (fun d hd => h d (by simp [hd]))

/-- Content growth of a single `push`: the pending blank line and the
indentation are emitted exactly when a non-newline character follows a line
break, and are immediately followed by that character. -/
theorem Buffer.content_push (b : Buffer) (c : Char) :
    (b.push c).content =
      b.content ++
        (if c ≠ '\n' ∧ endsWithNewline b.content = true then
          (if b.insert_blank_line then ['\n'] else []) ++ List.replicate b.indent ' '
        else []) ++ [c] := by
  simp only [Buffer.push, Buffer.push_indent]
  by_cases hc : c = '\n' <;> by_cases he : endsWithNewline b.content = true <;>
    by_cases hb : b.insert_blank_line <;>
      simp [hc, he, hb, List.append_assoc]

/-! ### Claim C2: unknown-construct safety via the structural fallback -/

/-- C2: a node whose kind id is absent from the classifier's table (and so is
classified `Undefined`), and more generally a node whose kind has no specific
rule, is rendered by the structural fallback: its named children are rendered
sequentially in source order with no text added by the node itself and no
error raised by the node itself.  The anonymous children (the grammar's
punctuation tokens: leaves whose ids carry no rule) contribute nothing, so
the rendering equals the sequential rendering of the named children alone. -/
theorem c2_unknown_kind_uses_structural_fallback (table : List (Nat × Symbol)) (b : Buffer)
    (n : Node)
    (hroot : table.lookup n.kindId = none ∨
      has_specific_rule (Symbol.fromId table n.kindId) = false)
    (hanon : ∀ c ∈ n.children, c.named = false →
      c.children = [] ∧ has_specific_rule (Symbol.fromId table c.kindId) = false) :
    format_node (Symbol.fromId table) b n =
      format_nodes (Symbol.fromId table) b (n.children.filter (fun c => c.named)) := by
  have hru : has_specific_rule (Symbol.fromId table n.kindId) = false := by
    rcases hroot with h | h
    · simp [Symbol.fromId, h, has_specific_rule]
    · exact h
  rw [format_node_fallback _ _ _ hru, format_children_eq]
  exact format_nodes_filter_named _ b _ hanon

def c2Table : List (Nat × Symbol) := [(5, Symbol.SimpleIdentifier)]

def c2Ident : Node := Node.mk 5 "simple_identifier".toList true "ab".toList 0 0 []

def c2Anon : Node := Node.mk 7 ";".toList false ";".toList 0 0 []

def c2Unknown : Node := Node.mk 99 "mystery".toList true "ab ;".toList 0 0 [c2Ident, c2Anon]

/-- Witness for C2: a concrete node whose id 99 is absent from a concrete
table renders as the sequential rendering of its named children. -/
theorem c2_witness :
    format_node (Symbol.fromId c2Table) (Buffer.with_capacity 0) c2Unknown =
      format_nodes (Symbol.fromId c2Table) (Buffer.with_capacity 0)
        (c2Unknown.children.filter (fun c => c.named)) :=
  c2_unknown_kind_uses_structural_fallback c2Table (Buffer.with_capacity 0) c2Unknown
    (Or.inl (by decide))
    (by
      intro c hc hnc
      rcases List.mem_cons.mp hc with rfl | hc2
      · simp [c2Ident, Node.named] at hnc
      · rcases List.mem_cons.mp hc2 with rfl | hc3
        · exact ⟨rfl, by decide⟩
        · cases hc3)

/-! ### Claim C3: structural-mismatch detection for expressions -/

/-- C3: an `Expression` node whose child count is neither 1 nor 3 (in
particular 2) makes the render call abort with `InvalidCount`, and when such
a node is rendered by `format` nothing reaches the output sink; with exactly
3 children the rule emits left, one space, the operator's source text, one
space, right; with exactly 1 child it recurses into that child. -/
theorem c3_expression_structural_mismatch (sf : Nat → Symbol) (b : Buffer) (n : Node)
    (src : List Char) :
    (n.children.length ≠ 1 → n.children.length ≠ 3 →
      format_expression sf b n = Except.error FmtError.InvalidCount ∧
      (sf n.kindId = Symbol.Expression →
        format sf src n = Except.error FmtError.InvalidCount)) ∧
    (∀ l op r, n.children = [l, op, r] →
      format_expression sf b n =
        match format_node sf b l with
        | Except.ok b1 =>
          format_node sf (((b1.push_str " ".toList).push_str op.text).push_str " ".toList) r
        | Except.error e => Except.error e) ∧
    (∀ c, n.children = [c] → format_expression sf b n = format_node sf b c) := by
  refine ⟨fun h1 h3 => ⟨format_expression_invalid sf b n h1 h3, fun hk => ?_⟩,
    fun l op r h => format_expression_three sf b n l op r h,
    fun c h => format_expression_one sf b n c h⟩
  rw [format_eq, format_node_eq_expression _ _ _ hk, format_expression_invalid _ _ _ h1 h3]

def c3Table : List (Nat × Symbol) := [(3, Symbol.Expression)]

def c3ChildA : Node := Node.mk 8 "a".toList false "a".toList 0 0 []

def c3ChildB : Node := Node.mk 8 "b".toList false "b".toList 0 0 []

def c3Expr2 : Node := Node.mk 3 "expression".toList true "a b".toList 0 0 [c3ChildA, c3ChildB]

/-- Witness for C3: a concrete 2-child expression makes `format` fail with
`InvalidCount`, producing no output. -/
theorem c3_witness :
    format (Symbol.fromId c3Table) "a b".toList c3Expr2 =
      Except.error FmtError.InvalidCount :=
  ((c3_expression_structural_mismatch (Symbol.fromId c3Table) (Buffer.with_capacity 0) c3Expr2
      "a b".toList).1 (by decide) (by decide)).2 (by decide)

/-! ### Claim C9: jump statements -/

/-- C9: a `JumpStatement` node emits the text of its keyword (the first
child); when the child count is exactly 3 it additionally emits one space and
then renders the expression child (the second child); with fewer children
only the keyword text is emitted and no error is raised. -/
theorem c9_jump_statement (sf : Nat → Symbol) (b : Buffer) (n : Node) (kw : Node)
    (h0 : n.children.get? 0 = some kw) :
    (∀ e, n.children.length = 3 → n.children.get? 1 = some e →
      format_jump_statement sf b n =
        format_expression sf ((b.push_str kw.text).push_str " ".toList) e) ∧
    (n.children.length ≠ 3 →
      format_jump_statement sf b n = Except.ok (b.push_str kw.text)) :=
  ⟨fun e hlen h1 => format_jump_statement_with_expression sf b n kw e h0 hlen h1,
    fun h3 => format_jump_statement_keyword_only sf b n kw h0 h3⟩

def c9Table : List (Nat × Symbol) := [(6, Symbol.JumpStatement)]

def c9Kw : Node := Node.mk 20 "return".toList false "return".toList 0 0 []

def c9Semi : Node := Node.mk 21 ";".toList false ";".toList 0 0 []

def c9Jump : Node := Node.mk 6 "jump_statement".toList true "return ;".toList 0 0 [c9Kw, c9Semi]

/-- Witness for C9: a concrete 2-child jump statement (`return ;`) emits only
the keyword text, without error. -/
theorem c9_witness :
    format_jump_statement (Symbol.fromId c9Table) (Buffer.with_capacity 0) c9Jump =
      Except.ok ((Buffer.with_capacity 0).push_str c9Kw.text) :=
  (c9_jump_statement (Symbol.fromId c9Table) (Buffer.with_capacity 0) c9Jump c9Kw rfl).2
    (by decide)

/-! ### Claim C4: the 80-column wrap boundary of the port list -/

/-- C4: for a function port list whose measured fragments are `frags`, the
single-line candidate is `"(" ++ fragments joined by ", " ++ ");"`.  If the
current column plus the candidate's length is at most 80 the candidate is
committed on one line exactly; if it exceeds 80 the committed form is
`"(\n"`, indent increased one level, each fragment on its own line followed
by `","` except the last, indent decreased back to its original value, then
`");"`. -/
theorem c4_wrap_boundary (sf : Nat → Symbol) (b : Buffer) (n : Node)
    (frags : List (List Char))
    (h : render_port_fragments sf (n.children.filter (fun c => c.named)) = Except.ok frags) :
    (b.line_length +
        ("(".toList ++ List.intercalate ", ".toList frags ++ ");".toList).length ≤ 80 →
      format_tf_port_list sf b n =
        Except.ok
          (b.push_str ("(".toList ++ List.intercalate ", ".toList frags ++ ");".toList))) ∧
    (80 < b.line_length +
        ("(".toList ++ List.intercalate ", ".toList frags ++ ");".toList).length →
      format_tf_port_list sf b n =
        Except.ok
          ({ push_fragments ((b.push_str "(\n".toList).increment_indent) frags with
              indent := b.indent, insert_blank_line := false }.push_str ");".toList)) := by
  have hind : (push_fragments ((b.push_str "(\n".toList).increment_indent) frags).indent =
      b.indent + 4 := by
    rw [push_fragments_indent]
    simp [Buffer.indent_push_str, Buffer.increment_indent]
  constructor
  · intro hle
    rw [format_tf_port_list_eq, h]
    simp only [if_pos hle]
  · intro hgt
    rw [format_tf_port_list_eq, h]
    simp only [if_neg (by omega : ¬(b.line_length +
      ("(".toList ++ List.intercalate ", ".toList frags ++ ");".toList).length ≤ 80))]
    rw [Buffer.decrement_indent_of_le _ (by omega), hind]
    simp

def c4Table : List (Nat × Symbol) := [(15, Symbol.TfPortList), (5, Symbol.SimpleIdentifier)]

def c4Port : Node := Node.mk 5 "simple_identifier".toList true "int a".toList 0 0 []

def c4List : Node := Node.mk 15 "tf_port_list".toList true "int a".toList 0 0 [c4Port]

/-- Witness for C4: a concrete one-port list whose candidate fits in 80
columns is committed on a single line. -/
theorem c4_witness :
    format_tf_port_list (Symbol.fromId c4Table) (Buffer.with_capacity 0) c4List =
      Except.ok ((Buffer.with_capacity 0).push_str
        ("(".toList ++ List.intercalate ", ".toList ["int a".toList] ++ ");".toList)) := by
  have hfr : render_port_fragments (Symbol.fromId c4Table)
      (c4List.children.filter (fun c => c.named)) = Except.ok ["int a".toList] := by
    rw [show c4List.children.filter (fun c => c.named) = [c4Port] from rfl]
    rw [render_port_fragments_cons, to_line_buffer_eq,
      format_node_eq_simple_identifier _ _ _ rfl, render_port_fragments_nil]
    rfl
  exact (c4_wrap_boundary (Symbol.fromId c4Table) (Buffer.with_capacity 0) c4List
    ["int a".toList] hfr).1 (by decide)

/-! ### Claim C8: the measurement pass has no effect on the real buffer -/

/-- C8: the Wrap Planner's measurement pass is side-effect-free with respect
to the real buffer.  Conjunct 1: the buffer used for measuring a fragment is
a pristine throwaway (empty content, column 0, indent 0, no pending blank
line), sharing no state with the real buffer.  Conjunct 2: every fragment is
measured by rendering into such a fresh buffer, independently of the real
one.  Conjunct 3: the whole port-list step factors as measurement followed
by commit, where the commit consumes the real buffer with its content,
column, indent level and pending-blank-line flag exactly as they were before
measurement began (the untouched `b`). -/
theorem c8_measurement_is_side_effect_free (sf : Nat → Symbol) (b : Buffer) (n : Node) :
    (Buffer.with_capacity 1024 =
      { content := [], line_length := 0, indent := 0, insert_blank_line := false }) ∧
    (∀ c : Node, to_line_buffer sf c =
      (format_node sf (Buffer.with_capacity 1024) c).map Buffer.content) ∧
    (format_tf_port_list sf b n =
      match render_port_fragments sf (n.children.filter (fun c => c.named)) with
      | Except.ok frags =>
        if b.line_length +
            ("(".toList ++ List.intercalate ", ".toList frags ++ ");".toList).length ≤ 80 then
          Except.ok
            (b.push_str ("(".toList ++ List.intercalate ", ".toList frags ++ ");".toList))
        else
          match (push_fragments ((b.push_str "(\n".toList).increment_indent)
              frags).decrement_indent with
          | Except.ok b1 => Except.ok (b1.push_str ");".toList)
          | Except.error e => Except.error e
      | Except.error e => Except.error e) :=
  ⟨rfl, fun c => to_line_buffer_eq sf c, format_tf_port_list_eq sf b n⟩

/-! ### Claim C5: blank-line normalization (gap policy) -/

/-- Step lemma for the comment arm of the function-body loop. -/
theorem format_function_body_items_comment (sf : Nat → Symbol) (b : Buffer)
    (prev : Option Node) (child : Node) (rest : List Node)
    (h : sf child.kindId = Symbol.Comment) :
    format_function_body_items sf b prev (child :: rest) =
      match (((if 0 < blank_lines_after_previous_function_item sf prev child then
          (b.increment_indent).push '\n' else b.increment_indent).push_str
            child.text).push_str "\n".toList).decrement_indent with
      | Except.ok b3 => format_function_body_items sf b3 (some child) rest
      | Except.error e => Except.error e := by
  rw [format_function_body_items, h]

/-- C5: for a statement or comment inside a function body whose previous
sibling is a statement or comment, a source row gap of 0 yields gap 0 (no
blank line), a positive row gap yields `rowGap - 1` counted blank lines, and
whenever that count is positive exactly one `'\n'` is pushed before the item
is rendered, however many blank source lines there were; with no previous
sibling no blank line is requested.  The last two conjuncts show the only
two render paths (statement and comment) push exactly that one character. -/
theorem c5_blank_line_normalization (sf : Nat → Symbol) (b : Buffer) (p n : Node)
    (rest : List Node)
    (hp : sf p.kindId = Symbol.FunctionStatementOrNull ∨ sf p.kindId = Symbol.Comment)
    (hn : n.children.length = 1) :
    (blank_lines_after_previous_function_item sf none n = 0) ∧
    (n.startRow - p.endRow = 0 →
      blank_lines_after_previous_function_item sf (some p) n = 0) ∧
    (0 < n.startRow - p.endRow →
      blank_lines_after_previous_function_item sf (some p) n = n.startRow - p.endRow - 1) ∧
    (format_function_statement_or_null sf b (some p) n =
      match format_children sf
          (if 0 < blank_lines_after_previous_function_item sf (some p) n then b.push '\n'
           else b) n with
      | Except.ok b2 => Except.ok (b2.push_str ";\n".toList)
      | Except.error e => Except.error e) ∧
    (format_function_statement_or_null sf b none n =
      match format_children sf b n with
      | Except.ok b2 => Except.ok (b2.push_str ";\n".toList)
      | Except.error e => Except.error e) ∧
    (sf n.kindId = Symbol.Comment →
      format_function_body_items sf b (some p) (n :: rest) =
        format_function_body_items sf
          { ((if 0 < blank_lines_after_previous_function_item sf (some p) n then
                (b.increment_indent).push '\n'
              else b.increment_indent).push_str n.text).push_str "\n".toList with
            indent := b.indent, insert_blank_line := false }
          (some n) rest) := by
  refine ⟨rfl, ?_, ?_, ?_, ?_, ?_⟩
  · intro h0
    rcases hp with hp | hp <;>
      simp [blank_lines_after_previous_function_item, hp, h0]
  · intro hpos
    rcases hp with hp | hp <;>
      · simp only [blank_lines_after_previous_function_item, hp]
        rw [if_neg (by omega)]
  · exact format_function_statement_or_null_eq sf b n (some p) hn
  · rw [format_function_statement_or_null_eq sf b n none hn]
    simp [blank_lines_after_previous_function_item]
  · intro hcm
    rw [format_function_body_items_comment sf b (some p) n rest hcm]
    have hind : (((if 0 < blank_lines_after_previous_function_item sf (some p) n then
        (b.increment_indent).push '\n' else b.increment_indent).push_str
          n.text).push_str "\n".toList).indent = b.indent + 4 := by
      rw [Buffer.indent_push_str, Buffer.indent_push_str]
      split <;> simp [Buffer.indent_push, Buffer.increment_indent]
    rw [Buffer.decrement_indent_of_le _ (by rw [hind]; omega), hind]
    simp

def c5Table : List (Nat × Symbol) :=
  [(30, Symbol.FunctionStatementOrNull), (31, Symbol.Comment)]

def c5Inner : Node := Node.mk 40 "statement".toList true "a = 2".toList 3 3 []

def c5Prev : Node :=
  Node.mk 30 "function_statement_or_null".toList true "a = 1;".toList 1 1 []

def c5Stmt : Node :=
  Node.mk 30 "function_statement_or_null".toList true "a = 2;".toList 3 3 [c5Inner]

/-- Witness for C5: with two fully blank source lines between the siblings
(previous ends on row 1, next starts on row 3), the counted gap is
`3 - 1 - 1 = 1` and the statement path pushes exactly one blank line. -/
theorem c5_witness :
    blank_lines_after_previous_function_item (Symbol.fromId c5Table) (some c5Prev) c5Stmt =
        c5Stmt.startRow - c5Prev.endRow - 1 ∧
      format_function_statement_or_null (Symbol.fromId c5Table) (Buffer.with_capacity 0)
          (some c5Prev) c5Stmt =
        match format_children (Symbol.fromId c5Table)
            (if 0 < blank_lines_after_previous_function_item (Symbol.fromId c5Table)
                (some c5Prev) c5Stmt then
              (Buffer.with_capacity 0).push '\n'
            else Buffer.with_capacity 0) c5Stmt with
        | Except.ok b2 => Except.ok (b2.push_str ";\n".toList)
        | Except.error e => Except.error e :=
  ⟨(c5_blank_line_normalization (Symbol.fromId c5Table) (Buffer.with_capacity 0) c5Prev
      c5Stmt [] (Or.inl rfl) (by decide)).2.2.1 (by decide),
    (c5_blank_line_normalization (Symbol.fromId c5Table) (Buffer.with_capacity 0) c5Prev
      c5Stmt [] (Or.inl rfl) (by decide)).2.2.2.1⟩

/-! ### Claim C6: the empty-class indent underflow (a code bug) -/

def c6Table : List (Nat × Symbol) := [(1, Symbol.ClassDeclaration), (2, Symbol.ClassIdentifier)]

def c6Kw : Node := Node.mk 10 "class".toList false "class".toList 0 0 []

def c6IdentLeaf : Node := Node.mk 11 "simple_identifier".toList true "c".toList 0 0 []

def c6Ident : Node := Node.mk 2 "class_identifier".toList true "c".toList 0 0 [c6IdentLeaf]

def c6Semi : Node := Node.mk 12 ";".toList false ";".toList 0 0 []

def c6End : Node := Node.mk 13 "endclass".toList false "endclass".toList 1 1 []

def c6EmptyClass : Node :=
  Node.mk 1 "class_declaration".toList true "class c;\nendclass".toList 0 1
    [c6Kw, c6Ident, c6Semi, c6End]

def c6Src : List Char := "class c;\nendclass".toList

/-- C6 (refuted by the code): `format_class_declaration` calls
`decrement_indent` unconditionally, but `increment_indent` only when a
`ClassItem` child was seen.  Rendering `class c; endclass` (a
ClassDeclaration with no ClassItem children) therefore underflows the
`usize` indent counter — the unmatched decrement panics under Rust's
overflow checks — instead of completing.  This theorem evaluates the code at
that failing input. -/
theorem c6_empty_class_indent_underflow :
    format (Symbol.fromId c6Table) c6Src c6EmptyClass = Except.error FmtError.Crash := by
  have hterm : format_terminals c6Ident " ".toList = "c".toList := by
    simp [format_terminals, collect_terminals, collect_terminals_list, c6Ident, c6IdentLeaf,
      Node.children, Node.text]
    decide
  have hloop : format_class_children (Symbol.fromId c6Table)
      ((Buffer.with_capacity (c6Src.length + c6Src.length / 2)).push_str "class ".toList)
      false c6EmptyClass.children =
      Except.ok
        (((Buffer.with_capacity (c6Src.length + c6Src.length / 2)).push_str
          "class ".toList).push_str "c".toList) := by
    rw [show c6EmptyClass.children = [c6Kw, c6Ident, c6Semi, c6End] from rfl]
    rw [format_class_children_other _ _ _ _ _ (by decide) (by decide)]
    rw [format_class_children_identifier _ _ _ _ _ rfl, hterm]
    rw [format_class_children_other _ _ _ _ _ (by decide) (by decide)]
    rw [format_class_children_other _ _ _ _ _ (by decide) (by decide)]
    rw [format_class_children_nil]
  rw [format_eq, format_node_eq_class_declaration _ _ _ rfl, format_class_declaration_eq,
    hloop]
  rfl

/-! ### Claim C7: what the column counter actually counts -/

/-- The number of characters present in the content since the last line
break (the spec's reading of `column`), stated from the spec's words. -/
def chars_since_last_line_break (content : List Char) : Nat :=
  (content.reverse.takeWhile (fun c => c != '\n')).length

theorem endsWithNewline_iff (l : List Char) :
    endsWithNewline l = true ↔ l.getLast? = some '\n' := by
  unfold endsWithNewline
  rcases h : l.getLast? with _ | c <;> simp

/-- Per-push accounting of `line_length`: reset to 0 by a pushed newline,
incremented by one per pushed non-newline character — and nothing else. -/
theorem Buffer.line_length_push_str (b : Buffer) (cs : List Char) :
    (b.push_str cs).line_length =
      if '\n' ∈ cs then (cs.reverse.takeWhile (fun x => x != '\n')).length
      else b.line_length + cs.length := by
  induction cs generalizing b with
  | nil => simp [Buffer.push_str]
  | cons c cs ih =>
    show ((b.push c).push_str cs).line_length = _
    rw [ih (b.push c), Buffer.line_length_push]
    by_cases hmem : '\n' ∈ cs
    · rw [if_pos hmem, if_pos (by simp [hmem])]
      rw [show (c :: cs).reverse = cs.reverse ++ [c] from by simp]
      rw [takeWhile_append_stop _ _ _ ⟨'\n', by simp [hmem], by simp⟩]
    · rw [if_neg hmem]
      by_cases hc : c = '\n'
      · subst hc
        rw [if_pos (show ('\n' : Char) ∈ '\n' :: cs from by simp)]
        rw [show ('\n' :: cs).reverse = cs.reverse ++ ['\n'] from by simp]
        rw [takeWhile_append_all _ _ _ (fun x hx => by
          simp only [List.mem_reverse] at hx
          have hxne : x ≠ '\n' := fun h => hmem (h ▸ hx)
          simp [hxne])]
        simp [List.takeWhile_cons]
      · rw [if_neg (show ¬('\n' : Char) ∈ c :: cs from by
          intro h
          rcases List.mem_cons.mp h with h | h
          · exact hc h.symm
          · exact hmem h)]
        simp [hc, List.length_cons]
        omega

/-- C7 (amended): `line_length` counts exactly the characters pushed by
clients since the last pushed line break; the indentation spaces (and any
pending blank line) that `push` inserts automatically appear in the content
but are never counted.  Conjunct 1 gives the exact accounting over any
pushed string; conjuncts 2 and 3 exhibit the exclusion: pushing one
non-newline character after a line break grows the current line of the
content by `indent + 1` characters while `line_length` grows by one. -/
theorem c7_line_length_counts_pushed_characters (b : Buffer) (cs : List Char) (c : Char)
    (hc : c ≠ '\n') (hend : endsWithNewline b.content = true)
    (hbl : b.insert_blank_line = false) :
    ((b.push_str cs).line_length =
      if '\n' ∈ cs then (cs.reverse.takeWhile (fun x => x != '\n')).length
      else b.line_length + cs.length) ∧
    (b.push c).content = b.content ++ List.replicate b.indent ' ' ++ [c] ∧
    chars_since_last_line_break ((b.push c).content) = b.indent + 1 := by
  have hcontent : (b.push c).content = b.content ++ List.replicate b.indent ' ' ++ [c] := by
    rw [Buffer.content_push]
    simp [hc, hend, hbl]
  refine ⟨Buffer.line_length_push_str b cs, hcontent, ?_⟩
  rw [chars_since_last_line_break, hcontent]
  rw [show (b.content ++ List.replicate b.indent ' ' ++ [c]).reverse =
    c :: (List.replicate b.indent ' ' ++ b.content.reverse) from by simp]
  rw [List.takeWhile_cons]
  simp only [show (c != '\n') = true from by simp [hc]]
  rw [takeWhile_append_all _ _ _ (fun x hx => by
    have : x = ' ' := List.eq_of_mem_replicate hx
    simp [this])]
  have hrev : b.content.reverse.takeWhile (fun x => x != '\n') = [] := by
    have hhead : b.content.reverse.head? = some '\n' := by
      rw [List.head?_reverse]
      exact (endsWithNewline_iff b.content).mp hend
    rcases hre : b.content.reverse with _ | ⟨h0, t⟩
    · rfl
    · rw [hre] at hhead
      simp at hhead
      rw [List.takeWhile_cons, hhead]
      simp
  rw [hrev]
  simp

def c7WitBuffer : Buffer :=
  { content := "x\n".toList, line_length := 0, indent := 4, insert_blank_line := false }

/-- Witness for the amended C7 at a concrete buffer and pushed string. -/
theorem c7_witness :
    ((c7WitBuffer.push_str "ab".toList).line_length =
      if '\n' ∈ "ab".toList then
        ("ab".toList.reverse.takeWhile (fun x => x != '\n')).length
      else c7WitBuffer.line_length + "ab".toList.length) ∧
    (c7WitBuffer.push 'a').content =
      c7WitBuffer.content ++ List.replicate c7WitBuffer.indent ' ' ++ ['a'] ∧
    chars_since_last_line_break ((c7WitBuffer.push 'a').content) = c7WitBuffer.indent + 1 :=
  c7_line_length_counts_pushed_characters c7WitBuffer "ab".toList 'a'
    (by decide) (by decide) (by decide)

def c7Table : List (Nat × Symbol) :=
  [(1, Symbol.OperatorAssignment), (2, Symbol.SimpleIdentifier), (3, Symbol.Expression),
    (4, Symbol.PrimaryLiteral), (51, Symbol.FunctionDataTypeOrImplicit1),
    (52, Symbol.FunctionIdentifier), (53, Symbol.TfPortList),
    (54, Symbol.FunctionStatementOrNull), (55, Symbol.FunctionBodyDeclaration),
    (56, Symbol.FunctionDeclaration)]

def c7Lval : Node := Node.mk 2 "simple_identifier".toList true "a".toList 1 1 []

def c7Op : Node := Node.mk 9 "asgnop".toList false "*=".toList 1 1 []

def c7Lit : Node := Node.mk 4 "primary_literal".toList true "2".toList 1 1 []

def c7Expr : Node := Node.mk 3 "expression".toList true "2".toList 1 1 [c7Lit]

def c7OpAssign : Node :=
  Node.mk 1 "operator_assignment".toList true "a *= 2".toList 1 1 [c7Lval, c7Op, c7Expr]

/-- The buffer state reached during the render of
`function int f(a); a *= 2; endfunction`, right when the body statement is
about to be rendered: the head line has been emitted, the statement scope
has been indented one level.  The counterexample below proves that the full
render factors through exactly this state. -/
def c7MidBuffer : Buffer :=
  { content := "function int f(a);\n".toList, line_length := 0, indent := 4,
    insert_blank_line := false }

/-- Remaining step lemmas for the function-declaration render path. -/
theorem format_function_declaration_ok (sf : Nat → Symbol) (b : Buffer) (n kw body : Node)
    (h : n.children = [kw, body]) (hk : kw.kind = "function".toList)
    (hb : sf body.kindId = Symbol.FunctionBodyDeclaration) :
    format_function_declaration sf b n =
      match format_function_body_items sf (b.push_str "function ".toList) none
          body.children with
      | Except.ok b1 => Except.ok ((b1.push_str "endfunction\n".toList).maybe_blank_line)
      | Except.error e => Except.error e := by
  rw [format_function_declaration]
  simp [h, hk, hb]

theorem format_function_body_items_nil (sf : Nat → Symbol) (b : Buffer) (prev : Option Node) :
    format_function_body_items sf b prev [] = Except.ok b := by
  rw [format_function_body_items]

theorem format_function_body_items_ftdoi (sf : Nat → Symbol) (b : Buffer) (prev : Option Node)
    (child : Node) (rest : List Node)
    (h : sf child.kindId = Symbol.FunctionDataTypeOrImplicit1) :
    format_function_body_items sf b prev (child :: rest) =
      format_function_body_items sf
        ((b.push_str (format_terminals child " ".toList)).push_str " ".toList)
        (some child) rest := by
  rw [format_function_body_items, h]

theorem format_function_body_items_identifier (sf : Nat → Symbol) (b : Buffer)
    (prev : Option Node) (child : Node) (rest : List Node)
    (h : sf child.kindId = Symbol.FunctionIdentifier) :
    format_function_body_items sf b prev (child :: rest) =
      format_function_body_items sf (b.push_str (format_terminals child " ".toList))
        (some child) rest := by
  rw [format_function_body_items, h]

theorem format_function_body_items_port_list_ok (sf : Nat → Symbol) (b b1 : Buffer)
    (prev : Option Node) (child : Node) (rest : List Node)
    (h : sf child.kindId = Symbol.TfPortList)
    (hp : format_tf_port_list sf b child = Except.ok b1) :
    format_function_body_items sf b prev (child :: rest) =
      format_function_body_items sf (b1.push_str "\n".toList) (some child) rest := by
  rw [format_function_body_items, h, hp]

theorem format_function_body_items_statement (sf : Nat → Symbol) (b : Buffer)
    (prev : Option Node) (child : Node) (rest : List Node)
    (h : sf child.kindId = Symbol.FunctionStatementOrNull) :
    format_function_body_items sf b prev (child :: rest) =
      match format_function_statement_or_null sf b.increment_indent prev child with
      | Except.ok b1 =>
        match b1.decrement_indent with
        | Except.ok b2 => format_function_body_items sf b2 (some child) rest
        | Except.error e => Except.error e
      | Except.error e => Except.error e := by
  rw [format_function_body_items, h]

def c7Kw : Node := Node.mk 50 "function".toList false "function".toList 0 0 []

def c7TypeLeaf : Node := Node.mk 60 "int".toList false "int".toList 0 0 []

def c7Type : Node :=
  Node.mk 51 "function_data_type_or_implicit1".toList true "int".toList 0 0 [c7TypeLeaf]

def c7FnIdentLeaf : Node := Node.mk 61 "simple_identifier".toList true "f".toList 0 0 []

def c7FnIdent : Node :=
  Node.mk 52 "function_identifier".toList true "f".toList 0 0 [c7FnIdentLeaf]

def c7Port : Node := Node.mk 2 "simple_identifier".toList true "a".toList 0 0 []

def c7PortList : Node := Node.mk 53 "tf_port_list".toList true "a".toList 0 0 [c7Port]

def c7Fson : Node :=
  Node.mk 54 "function_statement_or_null".toList true "a *= 2;".toList 1 1 [c7OpAssign]

def c7Body : Node :=
  Node.mk 55 "function_body_declaration".toList true
    "int f(a);\n    a *= 2;\nendfunction".toList 0 2 [c7Type, c7FnIdent, c7PortList, c7Fson]

def c7Fn : Node :=
  Node.mk 56 "function_declaration".toList true
    "function int f(a);\n    a *= 2;\nendfunction".toList 0 2 [c7Kw, c7Body]

/-- The buffer right after the function head `function int f` is emitted. -/
def c7BufHead : Buffer :=
  { content := "function int f".toList, line_length := 14, indent := 0,
    insert_blank_line := false }

/-- The buffer right after the port list and its newline are emitted. -/
def c7BufLine : Buffer :=
  { content := "function int f(a);\n".toList, line_length := 0, indent := 0,
    insert_blank_line := false }

/-- Identity rebuilding of an `Except` value through its own match. -/
theorem except_match_eta (x : Except FmtError Buffer) :
    (match x with
      | Except.ok a => Except.ok a
      | Except.error e => Except.error e) = x := by
  cases x <;> rfl

/-- Counterexample to C7 as stated.  Conjunct 1: the render pass of the
function declaration `function int f(a); a *= 2; endfunction` factors
through the render of the statement `a *= 2` at exactly the buffer state
`c7MidBuffer` (content `"function int f(a);\n"`, column 0, indent 4), so
that state and the statement render are points of a real render pass.
Conjunct 2: that render step yields a buffer whose column counter reads 6.
Conjuncts 3 and 4: the content of that buffer holds 10 characters since the
last line break — the 4 automatically inserted indentation spaces are not
counted, refuting «column equals the number of characters since the last
line break including any indentation spaces». -/
theorem c7_counterexample :
    (format_node (Symbol.fromId c7Table) (Buffer.with_capacity 0) c7Fn =
      match format_node (Symbol.fromId c7Table) c7MidBuffer c7OpAssign with
      | Except.ok b1 =>
        match (b1.push_str ";\n".toList).decrement_indent with
        | Except.ok b2 => Except.ok ((b2.push_str "endfunction\n".toList).maybe_blank_line)
        | Except.error e => Except.error e
      | Except.error e => Except.error e) ∧
      format_node (Symbol.fromId c7Table) c7MidBuffer c7OpAssign =
        Except.ok ({ content := "function int f(a);\n    a *= 2".toList,
                     line_length := 6, indent := 4, insert_blank_line := false } : Buffer) ∧
      chars_since_last_line_break "function int f(a);\n    a *= 2".toList = 10 ∧
      (6 : Nat) ≠ 10 := by
  have hfrag : render_port_fragments (Symbol.fromId c7Table)
      (c7PortList.children.filter (fun c => c.named)) = Except.ok ["a".toList] := by
    rw [show c7PortList.children.filter (fun c => c.named) = [c7Port] from rfl]
    rw [render_port_fragments_cons, to_line_buffer_eq,
      format_node_eq_simple_identifier _ _ _ rfl, render_port_fragments_nil]
    rfl
  have hport : format_tf_port_list (Symbol.fromId c7Table) c7BufHead c7PortList =
      Except.ok (c7BufHead.push_str "(a);".toList) := by
    rw [format_tf_port_list_eq, hfrag]
    rfl
  have htype : format_terminals c7Type " ".toList = "int".toList := by
    simp [format_terminals, collect_terminals, collect_terminals_list, c7Type, c7TypeLeaf,
      Node.children, Node.text]
    decide
  have hident : format_terminals c7FnIdent " ".toList = "f".toList := by
    simp [format_terminals, collect_terminals, collect_terminals_list, c7FnIdent,
      c7FnIdentLeaf, Node.children, Node.text]
    decide
  have hFson : format_function_statement_or_null (Symbol.fromId c7Table) c7MidBuffer
      (some c7PortList) c7Fson =
      match format_node (Symbol.fromId c7Table) c7MidBuffer c7OpAssign with
      | Except.ok b1 => Except.ok (b1.push_str ";\n".toList)
      | Except.error e => Except.error e := by
    rw [format_function_statement_or_null_eq _ _ c7Fson (some c7PortList) (by decide)]
    rw [show (if 0 < blank_lines_after_previous_function_item (Symbol.fromId c7Table)
        (some c7PortList) c7Fson then c7MidBuffer.push '\n' else c7MidBuffer) = c7MidBuffer
      from by decide]
    rw [format_children_eq, show c7Fson.children = [c7OpAssign] from rfl, format_nodes_cons]
    rcases hX : format_node (Symbol.fromId c7Table) c7MidBuffer c7OpAssign with e | b1 <;>
      simp [hX, format_nodes_nil]
  have hItems : format_function_body_items (Symbol.fromId c7Table) c7BufLine
      (some c7PortList) [c7Fson] =
      match format_node (Symbol.fromId c7Table) c7MidBuffer c7OpAssign with
      | Except.ok b1 => (b1.push_str ";\n".toList).decrement_indent
      | Except.error e => Except.error e := by
    rw [format_function_body_items_statement _ _ _ c7Fson _ rfl]
    rw [show c7BufLine.increment_indent = c7MidBuffer from rfl]
    rw [hFson]
    rcases hX : format_node (Symbol.fromId c7Table) c7MidBuffer c7OpAssign with e | b1 <;>
      simp [hX, format_function_body_items_nil, except_match_eta]
  have hportStep : format_function_body_items (Symbol.fromId c7Table) c7BufHead
      (some c7FnIdent) [c7PortList, c7Fson] =
      format_function_body_items (Symbol.fromId c7Table)
        ((c7BufHead.push_str "(a);".toList).push_str "\n".toList) (some c7PortList)
        [c7Fson] :=
    format_function_body_items_port_list_ok _ _ _ _ _ _ rfl hport
  refine ⟨?_, ?_, by decide, by decide⟩
  · rw [format_node_eq_function_declaration _ _ _ rfl]
    rw [format_function_declaration_ok _ _ c7Fn c7Kw c7Body rfl rfl rfl]
    rw [show c7Body.children = [c7Type, c7FnIdent, c7PortList, c7Fson] from rfl]
    rw [format_function_body_items_ftdoi _ _ _ c7Type _ rfl, htype]
    rw [format_function_body_items_identifier _ _ _ c7FnIdent _ rfl, hident]
    rw [show ((((Buffer.with_capacity 0).push_str "function ".toList).push_str
        "int".toList).push_str " ".toList).push_str "f".toList = c7BufHead from rfl]
    rw [hportStep]
    rw [show (c7BufHead.push_str "(a);".toList).push_str "\n".toList = c7BufLine from rfl]
    rw [hItems]
    rcases hX : format_node (Symbol.fromId c7Table) c7MidBuffer c7OpAssign with e | b1 <;>
      simp [hX]
  · rw [format_node_eq_operator_assignment _ _ _ rfl]
    rw [format_operator_assignment_three _ _ c7OpAssign c7Lval c7Op c7Expr rfl]
    rw [format_expression_one _ _ c7Expr c7Lit rfl]
    rw [format_node_eq_primary_literal _ _ _ rfl]
    rfl

/-! ### Claim C10: indentation is emitted only before visible content -/

/-- C10: the buffer emits indentation spaces (and a pending blank line) only
immediately before a non-newline character that follows a line break, and
they are immediately followed by that character; a pushed newline appends
nothing but itself, so every produced blank line is completely empty and no
line consists of automatic indentation alone. -/
theorem c10_indent_only_before_visible_content (b : Buffer) (c : Char) :
    ((b.push '\n').content = b.content ++ ['\n']) ∧
    (b.push c).content =
      b.content ++
        (if c ≠ '\n' ∧ endsWithNewline b.content = true then
          (if b.insert_blank_line then ['\n'] else []) ++ List.replicate b.indent ' '
        else []) ++ [c] := by
  constructor
  · rw [Buffer.content_push]
    simp
  · exact Buffer.content_push b c

end Svfmt
